import Mathlib

/-!
Shallow embedding of the tetrust board simulation (pieces, rotation,
collision, wall kick, line clearing, frame timers) together with proofs
about the properties its specification states.

Integer coordinates are embedded as `Int` (the source uses `i16`; all the
quantities in play are far from the overflow boundary and the claims do not
probe it). Durations, which the source keeps as `f64`, are embedded as `ℚ`:
the claims only concern the order structure of the accumulator arithmetic,
which ℚ models exactly. Randomness is injected as explicit arguments.
-/

/-- Linear index into the flat board array (`struct Pos(i16)`). -/
abbrev Pos := Int

/-- Signed 2-D grid coordinate (`struct Coord`). -/
structure Coord where
  x : Int
  y : Int
deriving DecidableEq, Repr

instance : Inhabited Coord := ⟨⟨0, 0⟩⟩

/-- Componentwise addition (`impl Add for Coord`). -/
def Coord.add (a b : Coord) : Coord := ⟨a.x + b.x, a.y + b.y⟩

/-- Componentwise subtraction (used by `rotate` via nalgebra vectors). -/
def Coord.sub (a b : Coord) : Coord := ⟨a.x - b.x, a.y - b.y⟩

/-- `Coord::coord_to_pos`: linearize an (x, y) coordinate as `x + y * width`. -/
def Coord.coord_to_pos (c : Coord) (width : Int) : Pos := c.x + c.y * width

/-- `Pos::pos_to_coord`: recover the coordinate as `(p % width, p / width)`. -/
def pos_to_coord (p : Pos) (width : Int) : Coord := ⟨p % width, p / width⟩

/-- `Coord::rand_x_offset` with the randomly drawn x injected as `i`. -/
def Coord.rand_x_offset (i : Int) (y : Int) : Coord := ⟨i, y⟩

/-- Movement intents (`enum Direction`). -/
inductive Direction
  | Down
  | Left
  | Right
  | None
deriving DecidableEq, Repr

/-- `impl Into<Coord> for Direction`: unit translation vector of an intent. -/
def Direction.to_coord : Direction → Coord
  | .Down => ⟨0, 1⟩
  | .Left => ⟨-1, 0⟩
  | .Right => ⟨1, 0⟩
  | .None => ⟨0, 0⟩

/-- `Direction::opposite`. -/
def Direction.opposite : Direction → Direction
  | .Left => .Right
  | .Right => .Left
  | _ => .None

/-- Rotation intents (`enum Rotation`). -/
inductive Rotation
  | CW
  | CCW
  | None
deriving DecidableEq, Repr

/-- `Rotation::to_dir`. -/
def Rotation.to_dir : Rotation → Direction
  | .CW => .Right
  | .CCW => .Left
  | .None => .None

/-- Collision verdicts (`enum Collision`). -/
inductive Collision
  | Left
  | Right
  | Under
  | None
deriving DecidableEq, Repr

/-- `Collision::to_dir`. -/
def Collision.to_dir : Collision → Direction
  | .Left => .Left
  | .Right => .Right
  | .Under => .Down
  | .None => .None

/-- Frame states (`enum FrameState`). -/
inductive FrameState
  | Ready
  | Waiting
  | Done
deriving DecidableEq, Repr

/-- Whether a frame state is `Done`. -/
def FrameState.isDone : FrameState → Bool
  | .Done => true
  | _ => false

/-- `struct FrameTimer` from `qs/src/animation.rs` (the `f64`-elapsed
version that `main.rs` drives via `state(elapsed)`); durations in ℚ. -/
structure FrameTimer where
  frames : List ℚ
  delay : ℚ
  last_update : ℚ
  next : Nat
deriving DecidableEq, Repr

/-- `FrameTimer::init_frameless`. -/
def FrameTimer.init_frameless (delay : ℚ) : FrameTimer :=
  ⟨[], delay, 0, 0⟩

/-- `FrameTimer::set_frames`. -/
def FrameTimer.set_frames (t : FrameTimer) (v : List ℚ) : FrameTimer :=
  { t with frames := v }

/-- `FrameTimer::from_vec`. -/
def FrameTimer.from_vec (frames : List ℚ) (delay : ℚ) : FrameTimer :=
  (FrameTimer.init_frameless delay).set_frames frames

/-- `FrameTimer::equal_sized`: n frames of equal duration. -/
def FrameTimer.equal_sized (n_frames : Nat) (duration delay : ℚ) : FrameTimer :=
  (FrameTimer.init_frameless delay).set_frames (List.replicate n_frames duration)

/-- `FrameTimer::is_done`: `next == frames.len()`. -/
def FrameTimer.is_done (t : FrameTimer) : Bool :=
  t.next = t.frames.length

/-- `FrameTimer::state(elapsed)`: advancing query. Returns the state and
the timer after the call's side effects. -/
def FrameTimer.state (t : FrameTimer) (elapsed : ℚ) : FrameState × FrameTimer :=
  if t.is_done then (.Done, t)
  else
    let lu := t.last_update + elapsed
    let curr := t.frames.getD t.next 0
    if t.next = 0 then
      if t.delay < lu then (.Ready, { t with next := 1, last_update := 0 })
      else (.Waiting, { t with last_update := lu })
    else
      if curr ≤ lu then (.Ready, { t with next := t.next + 1, last_update := 0 })
      else (.Waiting, { t with last_update := lu })

/-- `FrameTimer::get_state`: the non-mutating peek. -/
def FrameTimer.get_state (t : FrameTimer) : FrameState :=
  if t.is_done then .Done
  else
    let curr := t.frames.getD t.next 0
    if t.next = 0 then
      if t.delay < t.last_update then .Ready else .Waiting
    else
      if curr ≤ t.last_update then .Ready else .Waiting

/-- `timing::SECOND`. -/
def SECOND : ℚ := 1000

/-- `timing::UPDATES_PER_SEC`. -/
def UPDATES_PER_SEC : ℚ := 16

/-- `timing::MILLIS_PER_UPDATE`. -/
def MILLIS_PER_UPDATE : ℚ := SECOND / UPDATES_PER_SEC

/-- `enum Color`. -/
inductive Color
  | Black
  | Green
  | Yellow
  | Red
  | Blue
  | Pink
  | White
  | Aqua
deriving DecidableEq, Repr

/-- `NUM_COLORS`. -/
def NUM_COLORS : Nat := 8

/-- `COLORS`. -/
def COLORS : List Color :=
  [.Black, .Green, .Yellow, .Red, .Blue, .Pink, .White, .Aqua]

/-- `Color::get_color`: `COLORS[(i + 1) % NUM_COLORS]`. -/
def Color.get_color (i : Nat) : Color :=
  COLORS.getD ((i + 1) % NUM_COLORS) .Black

/-- `struct Bone`: one colored unit cell. -/
structure Bone where
  color : Color
  coord : Coord
deriving DecidableEq, Repr

instance : Inhabited Bone := ⟨⟨.Black, ⟨0, 0⟩⟩⟩

/-- `enum PieceKind`. -/
inductive PieceKind
  | L
  | J
  | I
  | T
  | Z
  | S
  | O
deriving DecidableEq, Repr

/-- `TETRINOME_SIZE`. -/
def TETRINOME_SIZE : Nat := 4

/-- `struct Tetrinome`: kind, bones, optional pivot index into `bones`. -/
structure Tetrinome where
  kind : PieceKind
  bones : List Bone
  pivot : Option Nat
deriving DecidableEq, Repr

/-- `Tetrinome::shift`: every bone coordinate plus `offset`. -/
def Tetrinome.shift (p : Tetrinome) (offset : Coord) : List Coord :=
  p.bones.map (fun bone => bone.coord.add offset)

/-- The in-place `iter_mut().zip(new_coords)` coordinate replacement of
`Tetrinome::trans_to`: bones beyond the zipped prefix stay unchanged. -/
def updateCoords : List Bone → List Coord → List Bone
  | bones, [] => bones
  | [], _ => []
  | bone :: bones, c :: cs => { bone with coord := c } :: updateCoords bones cs

/-- `Tetrinome::trans_to`. -/
def Tetrinome.trans_to (p : Tetrinome) (new_coords : List Coord) : Tetrinome :=
  { p with bones := updateCoords p.bones new_coords }

/-- `Tetrinome::trans_change`: translate in place by `offset`. -/
def Tetrinome.trans_change (p : Tetrinome) (offset : Coord) : Tetrinome :=
  p.trans_to (p.shift offset)

/-- `Tetrinome::get_coords`. -/
def Tetrinome.get_coords (p : Tetrinome) : List Coord :=
  p.bones.map (fun bone => bone.coord)

/-- `Tetrinome::get_width`: `max(x) - min(x) + 1`. -/
def Tetrinome.get_width (p : Tetrinome) : Int :=
  let xs := p.bones.map (fun bone => bone.coord.x)
  (xs.max?.getD 0) - (xs.min?.getD 0) + 1

/-- The CW rotation matrix `[[0, -1], [1, 0]]` applied to an offset. -/
def rotCW (d : Coord) : Coord :=
  ⟨0 * d.x + (-1) * d.y, 1 * d.x + 0 * d.y⟩

/-- The CCW rotation matrix `[[0, 1], [-1, 0]]` applied to an offset. -/
def rotCCW (d : Coord) : Coord :=
  ⟨0 * d.x + 1 * d.y, (-1) * d.x + 0 * d.y⟩

/-- The `rot_cw_matrix` selection inside `Tetrinome::rotate`: the CW
matrix for CW, the CCW matrix otherwise. -/
def rot_matrix (rot : Rotation) (d : Coord) : Coord :=
  match rot with
  | .CW => rotCW d
  | _ => rotCCW d

/-- The loop body of `Tetrinome::rotate`: every bone coordinate becomes
`pivot_vec + M * (coord - pivot_vec)`. -/
def rotate_bones (pivot_vec : Coord) (rot : Rotation) (bones : List Bone) : List Bone :=
  bones.map (fun bone =>
    { bone with coord := pivot_vec.add (rot_matrix rot (bone.coord.sub pivot_vec)) })

/-- `Tetrinome::rotate`: with a pivot, map every bone coordinate through
`pivot + M * (coord - pivot)`; without a pivot (or for `Rotation::None`)
leave the piece untouched. -/
def Tetrinome.rotate (p : Tetrinome) (rot : Rotation) : Tetrinome :=
  match p.pivot with
  | none => p
  | some pivot_i =>
    match rot with
    | .None => p
    | _ =>
      let pivot_vec := (p.bones.getD pivot_i default).coord
      { p with bones := rotate_bones pivot_vec rot p.bones }

/-- Layout of the I piece, rows joined by newlines as in the source. -/
def layoutI : List Char :=
  ['-', '-', '-', '-', '\n',
   'x', 'o', 'x', 'x', '\n',
   '-', '-', '-', '-', '\n',
   '-', '-', '-', '-']

/-- Layout of the L piece. -/
def layoutL : List Char :=
  ['-', '-', 'x', '-', '\n',
   'x', 'o', 'x', '-', '\n',
   '-', '-', '-', '-', '\n',
   '-', '-', '-', '-']

/-- Layout of the J piece. -/
def layoutJ : List Char :=
  ['x', '-', '-', '-', '\n',
   'x', 'o', 'x', '-', '\n',
   '-', '-', '-', '-', '\n',
   '-', '-', '-', '-']

/-- Layout of the T piece. -/
def layoutT : List Char :=
  ['-', '-', 'x', '-', '\n',
   '-', 'x', 'o', 'x', '\n',
   '-', '-', '-', '-', '\n',
   '-', '-', '-', '-']

/-- Layout of the Z piece. -/
def layoutZ : List Char :=
  ['x', 'x', '-', '-', '\n',
   '-', 'o', 'x', '-', '\n',
   '-', '-', '-', '-', '\n',
   '-', '-', '-', '-']

/-- Layout of the S piece. -/
def layoutS : List Char :=
  ['-', '-', 'x', 'x', '\n',
   '-', 'x', 'o', '-', '\n',
   '-', '-', '-', '-', '\n',
   '-', '-', '-', '-']

/-- Layout of the O piece (no pivot cell). -/
def layoutO : List Char :=
  ['-', 'x', 'x', '-', '\n',
   '-', 'x', 'x', '-', '\n',
   '-', '-', '-', '-', '\n',
   '-', '-', '-', '-']

/-- `Tetrinome::from_layout`: scan the layout characters; an `x` or `o`
becomes a bone at the coordinate decoded from its index (layout width =
index of the first newline + 1); `o` records the pivot. -/
def Tetrinome.from_layout (layout : List Char) (color : Color) (kind : PieceKind) : Tetrinome :=
  let width : Int := Int.ofNat (layout.indexOf '\n') + 1
  let res := layout.enum.foldl
    (fun (acc : List Bone × Option Nat × Nat) ic =>
      if ic.2 = 'x' ∨ ic.2 = 'o' then
        let bone : Bone := ⟨color, pos_to_coord (Int.ofNat ic.1) width⟩
        let bones := acc.1.set acc.2.2 bone
        let pivot := if ic.2 = 'o' then some acc.2.2 else acc.2.1
        (bones, pivot, acc.2.2 + 1)
      else acc)
    (List.replicate TETRINOME_SIZE default, none, 0)
  ⟨kind, res.1, res.2.1⟩

/-- `Tetrinome::from_piece`. -/
def Tetrinome.from_piece (kind : PieceKind) : Tetrinome :=
  match kind with
  | .I => Tetrinome.from_layout layoutI .Green .I
  | .L => Tetrinome.from_layout layoutL .Yellow .L
  | .J => Tetrinome.from_layout layoutJ .Red .J
  | .T => Tetrinome.from_layout layoutT .Blue .T
  | .Z => Tetrinome.from_layout layoutZ .Pink .Z
  | .S => Tetrinome.from_layout layoutS .White .S
  | .O => Tetrinome.from_layout layoutO .Aqua .O

/-- `PIECES` in the order `State::new` fills it: I, O, L, T, Z, S, J. -/
def PIECES : List Tetrinome :=
  [Tetrinome.from_piece .I, Tetrinome.from_piece .O, Tetrinome.from_piece .L,
   Tetrinome.from_piece .T, Tetrinome.from_piece .Z, Tetrinome.from_piece .S,
   Tetrinome.from_piece .J]

/-- `Distribution<Tetrinome>::sample` with the random kind index and the
random rotation injected: clone the selected prototype and rotate it one
step around its own pivot. -/
def Tetrinome.sample (i : Fin 7) (rot : Rotation) : Tetrinome :=
  (PIECES.getD i.val (Tetrinome.from_piece .I)).rotate rot

/-- `Tetrinome::new(width)` with the random draws injected: sample a
rotated prototype, then translate it by the random x offset at `y = -1`.
The source draws `xoff` from `gen_range(TETRINOME_SIZE, width - TETRINOME_SIZE)`. -/
def Tetrinome.new (width : Int) (i : Fin 7) (rot : Rotation) (xoff : Int) : Tetrinome :=
  (Tetrinome.sample i rot).trans_change (Coord.rand_x_offset xoff (-1))

/-- `struct Block`: a committed cell plus an optional clear-animation timer. -/
structure Block where
  bone : Bone
  frame_timer : Option FrameTimer
deriving DecidableEq, Repr

/-- `impl From<Bone> for Block`. -/
def Block.from_bone (b : Bone) : Block := ⟨b, none⟩

/-- `struct Blocks`: the flat board array and the FIFO queue of rows mid-clear. -/
structure Blocks where
  data : List (Option Block)
  rows_full : List Int
deriving DecidableEq, Repr

/-- `Grid::WIDTH`. -/
def Grid.WIDTH : Int := 10

/-- `Grid::HEIGHT`. -/
def Grid.HEIGHT : Int := 20

/-- `Grid::SIZE`. -/
def Grid.SIZE : Int := Grid.WIDTH * Grid.HEIGHT

/-- `Blocks::new`. -/
def Blocks.new (len : Nat) : Blocks := ⟨List.replicate len none, []⟩

/-- `Blocks::set_block`: guarded on `new_pos >= 0`, otherwise a skip. -/
def Blocks.set_block (b : Blocks) (new_pos : Pos) (bone : Bone) : Blocks :=
  if 0 ≤ new_pos then
    { b with data := b.data.set new_pos.toNat (some (Block.from_bone bone)) }
  else b

/-- `Blocks::get_block`: guarded on `pos >= 0`, otherwise `None`. -/
def Blocks.get_block (b : Blocks) (pos : Pos) : Option Block :=
  if 0 ≤ pos then b.data.getD pos.toNat none else none

/-- `Blocks::clear`: replace the whole array by `Grid::SIZE` empty slots. -/
def Blocks.clear (b : Blocks) : Blocks :=
  { b with data := List.replicate Grid.SIZE.toNat none }

/-- The `width` cells of a row of the flat array (the slice
`data[row*WIDTH .. row*WIDTH + WIDTH]`). -/
def Blocks.rowCells (b : Blocks) (row : Int) : List (Option Block) :=
  (b.data.drop (row * Grid.WIDTH).toNat).take Grid.WIDTH.toNat

/-- `Blocks::row_full`: every slot of the row is occupied. -/
def Blocks.row_full (b : Blocks) (row : Int) : Bool :=
  (b.rowCells row).all (fun some_block => some_block.isSome)

/-- `Blocks::clear_row`: blank every slot of the row. -/
def Blocks.clear_row (b : Blocks) (row : Int) : Blocks :=
  let start := (row * Grid.WIDTH).toNat
  let d := (List.range Grid.WIDTH.toNat).foldl
    (fun d j => d.set (start + j) none) b.data
  { b with data := d }

/-- `Blocks::add_row_to_clear`: push onto the FIFO clearing queue. -/
def Blocks.add_row_to_clear (b : Blocks) (row : Int) : Blocks :=
  { b with rows_full := b.rows_full ++ [row] }

/-- The peeked frame states of the timers present in a row (the
`filter_map` inside `Blocks::row_ready`). -/
def Blocks.rowTimerStates (b : Blocks) (row : Int) : List FrameState :=
  (b.rowCells row).filterMap
    (fun some_block => some_block.bind
      (fun block => block.frame_timer.map (fun ft => ft.get_state)))

/-- `Blocks::row_ready`: all timers present in the row peek as `Done`. -/
def Blocks.row_ready (b : Blocks) (row : Int) : Bool :=
  (b.rowTimerStates row).all (fun s => s.isDone)

/-- `Blocks::start_clear`: attach a fresh wave timer (and wave color) to
every occupied, not-yet-animating cell of the row, then enqueue the row. -/
def Blocks.start_clear (b : Blocks) (row : Int) : Blocks :=
  let start := (row * Grid.WIDTH).toNat
  let frame_duration := MILLIS_PER_UPDATE * 3
  let total_anim_time : ℚ := 3000
  let n_frames := (Int.floor (total_anim_time / frame_duration)).toNat
  let res := (List.range Grid.WIDTH.toNat).foldl
    (fun (acc : List (Option Block) × Nat) j =>
      match acc.1.getD (start + j) none with
      | some block =>
        match block.frame_timer with
        | none =>
          let block :=
            { block with
              bone := { block.bone with color := Color.get_color acc.2 },
              frame_timer := some (FrameTimer.equal_sized n_frames frame_duration 0) }
          (acc.1.set (start + j) (some block), acc.2 + 1)
        | some _ => acc
      | none => acc)
    (b.data, 0)
  ({ b with data := res.1 }).add_row_to_clear row

/-- `Blocks::get_piece_rows`: sorted, deduplicated y values of the piece. -/
def Blocks.get_piece_rows (b : Blocks) (piece : Tetrinome) : List Int :=
  ((piece.bones.map (fun bone => bone.coord.y)).mergeSort (fun a b => a ≤ b)).dedup

/-- The queue adjustment loop at the end of `Blocks::drop_row_down`:
`if row >= full_row { *full_row += 1 }` for each queued entry. -/
def adjust_rows_full (row : Int) : List Int → List Int
  | [] => []
  | q :: qs => (if q ≤ row then q + 1 else q) :: adjust_rows_full row qs

/-- `Blocks::drop_row_down`: move every occupied cell of `row` one row
down (reading the row from a pre-mutation clone), adjust the queued
row indices, and return the number of cells moved. -/
def Blocks.drop_row_down (b : Blocks) (row : Int) : Blocks × Int :=
  let start := (row * Grid.WIDTH).toNat
  let w := Grid.WIDTH.toNat
  let row_data := (b.data.drop start).take w
  let res := (List.range w).foldl
    (fun (acc : List (Option Block) × Int) j =>
      match row_data.getD j none with
      | some block =>
        let block :=
          { block with bone :=
            { block.bone with coord := ⟨block.bone.coord.x, block.bone.coord.y + 1⟩ } }
        ((acc.1.set (start + j) none).set (start + j + w) (some block), acc.2 + 1)
      | none => acc)
    (b.data, 0)
  (⟨res.1, adjust_rows_full row b.rows_full⟩, res.2)

/-- The `for upper_row in (0..ready_row).rev()` loop of `finish_clear`:
drop rows downward from `ready_row - 1` to 0, stopping after the first
empty row (the drop that returned 0 has still run). Fuel is `ready_row`. -/
def Blocks.drop_rows_above (b : Blocks) : Nat → Blocks
  | 0 => b
  | k + 1 =>
    let res := b.drop_row_down (Int.ofNat k)
    if res.2 = 0 then res.1 else res.1.drop_rows_above k

/-- The `ready_rows` selection of `Blocks::finish_clear`: queued rows
whose timers all peek as `Done`. -/
def Blocks.readyRows (b : Blocks) : List Int :=
  b.rows_full.filter (fun row => b.row_ready row)

/-- The first loop of `Blocks::finish_clear`: blank every ready row. -/
def Blocks.blankPhase (b : Blocks) : Blocks :=
  b.readyRows.foldl (fun acc r => acc.clear_row r) b

/-- `Blocks::finish_clear`: blank the ready rows, then for each ready row
compact the rows above it downward and dequeue from the front. -/
def Blocks.finish_clear (b : Blocks) : Blocks :=
  b.readyRows.foldl
    (fun acc r =>
      let acc2 := acc.drop_rows_above r.toNat
      { acc2 with rows_full := acc2.rows_full.drop 1 })
    b.blankPhase

/-- The occupied-cell verdict of `Blocks::check_collision`: classify the
conflict by the attempted direction, falling back to the rotation's
derived direction. -/
def occupied_collision (dir : Direction) (rot : Rotation) : Collision :=
  match dir with
  | .Down => .Under
  | .Left => .Left
  | .Right => .Right
  | .None =>
    match rot.to_dir with
    | .Left => .Left
    | .Right => .Right
    | _ => .None

/-- The per-coordinate scan of `Blocks::check_collision`, returning at the
first cell that yields a verdict. -/
def Blocks.collision_scan (b : Blocks) (dir : Direction) (rot : Rotation) : List Coord → Collision
  | [] => .None
  | coord :: rest =>
    if coord.x < 0 then .Left
    else if Grid.WIDTH ≤ coord.x then .Right
    else if Grid.HEIGHT ≤ coord.y then .Under
    else
      match b.get_block (coord.coord_to_pos Grid.WIDTH) with
      | none => b.collision_scan dir rot rest
      | some _ => occupied_collision dir rot

/-- `Blocks::check_collision`. -/
def Blocks.check_collision (b : Blocks) (piece : Tetrinome) (dir : Direction) (rot : Rotation) : Collision :=
  b.collision_scan dir rot piece.get_coords

/-- `struct InstantDrop`. -/
structure InstantDrop where
  piece : Tetrinome
  frame_timer : FrameTimer
deriving DecidableEq, Repr

/-- `struct Grid`. -/
structure Grid where
  blocks : Blocks
  curr_piece : Tetrinome
  instant_drop : Option InstantDrop
deriving DecidableEq, Repr

/-- `Grid::commit_piece`: write every bone of the current piece into the board. -/
def Grid.commit_piece (g : Grid) : Grid :=
  let bs := g.curr_piece.bones.foldl
    (fun bs new_block => bs.set_block (new_block.coord.coord_to_pos Grid.WIDTH) new_block)
    g.blocks
  { g with blocks := bs }

/-- `Grid::clear_row_if`: scan rows 0 ..= the piece's lowest row, starting
a clear on every full row. -/
def Grid.clear_row_if (g : Grid) : Grid :=
  let rows := g.blocks.get_piece_rows g.curr_piece
  let maxRow := rows.getD (rows.length - 1) 0
  let bs := (List.range (maxRow + 1).toNat).foldl
    (fun bs j =>
      let row := Int.ofNat j
      if bs.row_full row then bs.start_clear row else bs)
    g.blocks
  { g with blocks := bs }

/-- The `for _ in 0..n { trans_change(unit) }` kick loop of `move_if`. -/
def Tetrinome.trans_repeat (p : Tetrinome) (offset : Coord) : Nat → Tetrinome
  | 0 => p
  | k + 1 => (p.trans_change offset).trans_repeat offset k

/-- The candidate pose `move_if` builds before checking collision:
translate by the direction's unit vector, then rotate. -/
def Grid.candidate (g : Grid) (dir : Direction) (rot : Rotation) : Tetrinome :=
  (g.curr_piece.trans_change dir.to_coord).rotate rot

/-- `Grid::move_if`, with the piece spawned on commit injected as
`spawned`. Returns the new grid and whether a piece was committed. -/
def Grid.move_if (g : Grid) (dir : Direction) (rot : Rotation) (spawned : Tetrinome) : Grid × Bool :=
  let new_piece := g.candidate dir rot
  let col_dir := g.blocks.check_collision new_piece dir rot
  match col_dir with
  | .Under =>
    let g1 := g.commit_piece
    let g2 := g1.clear_row_if
    ({ g2 with curr_piece := spawned }, true)
  | .None => ({ g with curr_piece := new_piece }, false)
  | _ =>
    match rot with
    | .CW | .CCW =>
      let new_dir := col_dir.to_dir.opposite
      let kicked := new_piece.trans_repeat new_dir.to_coord (new_piece.get_width / 2).toNat
      let new_col := g.blocks.check_collision kicked new_dir .None
      match new_col with
      | .None => ({ g with curr_piece := kicked }, false)
      | _ => (g, false)
    | .None => (g, false)

/-- Modelled from the spec: the wall-kick dispatch as the spec words it
(one single horizontal shift of `width/2` cells opposite the collision,
one re-check with no further rotation, accept or leave unchanged). Used
to compare `move_if` against the spec's description. -/
def Grid.kick_spec (g : Grid) (dir : Direction) (rot : Rotation) : Grid :=
  let cand := g.candidate dir rot
  let col := g.blocks.check_collision cand dir rot
  let sign : Int := match col with | .Left => 1 | _ => -1
  let kicked := cand.trans_change ⟨sign * (cand.get_width / 2), 0⟩
  if g.blocks.check_collision kicked col.to_dir.opposite .None = .None then
    { g with curr_piece := kicked }
  else g

/-- Modelled from the spec: per-cell conflict classification (bounds
checks in priority order, then occupancy classified by the attempted
action). Used to compare `check_collision` against the spec's
first-conflict description. -/
def Blocks.cell_conflict (b : Blocks) (dir : Direction) (rot : Rotation) (coord : Coord) : Option Collision :=
  if coord.x < 0 then some .Left
  else if Grid.WIDTH ≤ coord.x then some .Right
  else if Grid.HEIGHT ≤ coord.y then some .Under
  else
    match b.get_block (coord.coord_to_pos Grid.WIDTH) with
    | none => none
    | some _ => some (occupied_collision dir rot)

/-! ### General lemmas about the embedded operations -/

theorem adjust_rows_full_eq_map (row : Int) (l : List Int) :
    adjust_rows_full row l = l.map (fun q => if q ≤ row then q + 1 else q) := by
  induction l with
  | nil => rfl
  | cons q qs ih => simp [adjust_rows_full, ih]

/-! ### C1: queue adjustment in drop_row_down -/

/-- Fixture board for the C1 counterexample: empty cells, row 3 queued. -/
def bC1 : Blocks := ⟨List.replicate 200 none, [3]⟩

/-- C1 (counterexample): dropping row 5 increments the queued index 3,
although the claimed condition `r <= q` (5 <= 3) does not hold there, so
the claim's adjustment rule contradicts the code. -/
theorem drop_row_down_adjust_counterexample :
    (bC1.drop_row_down 5).1.rows_full = [4]
    ∧ (bC1.drop_row_down 5).1.rows_full ≠ [3] := by
  constructor
  · decide
  · decide

/-- C1 (amended): `drop_row_down` on row `r` increments every queued row
index `q` with `r >= q` (the drop point at-or-below the queued row
numerically above it) by exactly one and leaves every other queued index
unchanged. -/
theorem drop_row_down_rows_full_adjust (b : Blocks) (row : Int) :
    (b.drop_row_down row).1.rows_full
      = b.rows_full.map (fun q => if q ≤ row then q + 1 else q) := by
  simp [Blocks.drop_row_down, adjust_rows_full_eq_map]

/-! ### C9: negative Pos guard -/

/-- C9: writing at a negative `Pos` leaves the board exactly unchanged
and reading at a negative `Pos` returns `none`. -/
theorem negative_pos_guard (b : Blocks) (p : Pos) (bone : Bone) (h : p < 0) :
    b.set_block p bone = b ∧ b.get_block p = none := by
  constructor
  · simp only [Blocks.set_block]
    rw [if_neg (not_le.mpr h)]
  · simp only [Blocks.get_block]
    rw [if_neg (not_le.mpr h)]

/-- C9 witness at the concrete position `-1`. -/
theorem negative_pos_guard_witness :
    (Blocks.new 200).set_block (-1) ⟨Color.Red, ⟨0, 0⟩⟩ = Blocks.new 200
    ∧ (Blocks.new 200).get_block (-1) = none :=
  negative_pos_guard (Blocks.new 200) (-1) ⟨Color.Red, ⟨0, 0⟩⟩ (by decide)

/-! ### C10: board-wide clear -/

/-- C10: `clear` replaces the flat array by `Grid::SIZE` empty slots
(leaving every cell slot empty) and leaves the `rows_full` clearing queue
exactly unchanged. -/
theorem clear_board_preserves_queue (b : Blocks) :
    (b.clear).rows_full = b.rows_full
    ∧ (b.clear).data = List.replicate Grid.SIZE.toNat none
    ∧ (b.clear).data.all (fun s => s.isNone) = true := by
  refine ⟨rfl, rfl, ?_⟩
  have hdata : (b.clear).data = List.replicate Grid.SIZE.toNat none := rfl
  rw [hdata, List.all_eq_true]
  intro x hx
  rw [List.eq_of_mem_replicate hx]
  rfl

/-! ### C7: coordinate/index conversions are inverse on the board -/

/-- C7: for in-range coordinates, `coord_to_pos` then `pos_to_coord` is
the identity; for in-range linear positions, `pos_to_coord` then
`coord_to_pos` is the identity. -/
theorem coord_pos_roundtrip (width height : Int) (hw : 0 < width) :
    (∀ c : Coord, 0 ≤ c.x → c.x < width → 0 ≤ c.y → c.y < height →
      pos_to_coord (c.coord_to_pos width) width = c)
    ∧ (∀ p : Pos, 0 ≤ p → p < width * height →
      (pos_to_coord p width).coord_to_pos width = p) := by
  constructor
  · intro c hx0 hxw hy0 hyh
    have h1 : (c.x + c.y * width) % width = c.x := by
      rw [Int.add_mul_emod_self]
      exact Int.emod_eq_of_lt hx0 hxw
    have h2 : (c.x + c.y * width) / width = c.y := by
      rw [Int.add_mul_ediv_right _ _ (by omega), Int.ediv_eq_zero_of_lt hx0 hxw]
      omega
    cases c with
    | mk x y =>
      simp only [pos_to_coord, Coord.coord_to_pos] at *
      rw [h1, h2]
  · intro p hp0 hpwh
    simp only [pos_to_coord, Coord.coord_to_pos]
    exact Int.emod_add_ediv' p width

/-- C7 witness at width 10, height 20, coordinate (3, 5) and position 53. -/
theorem coord_pos_roundtrip_witness :
    pos_to_coord (Coord.coord_to_pos ⟨3, 5⟩ 10) 10 = ⟨3, 5⟩
    ∧ (pos_to_coord 53 10).coord_to_pos 10 = 53 :=
  ⟨(coord_pos_roundtrip 10 20 (by decide)).1 ⟨3, 5⟩ (by decide) (by decide) (by decide) (by decide),
   (coord_pos_roundtrip 10 20 (by decide)).2 53 (by decide) (by decide)⟩

/-! ### C6: the FrameTimer advancing-state contract -/

/-- C6: the contract of `FrameTimer::state`: Done is terminal and mutates
nothing; otherwise the elapsed time is accumulated and the timer either
advances (strictly past the delay at index 0, reaching the current frame
duration at index > 0), resetting the accumulator and returning Ready, or
returns Waiting keeping the accumulated total. -/
theorem frame_timer_state_contract (t : FrameTimer) (elapsed : ℚ) (h0 : 0 ≤ elapsed) :
    (t.next = t.frames.length → t.state elapsed = (.Done, t))
    ∧ (t.next < t.frames.length → t.next = 0 → t.delay < t.last_update + elapsed →
        t.state elapsed = (.Ready, { t with next := 1, last_update := 0 }))
    ∧ (t.next < t.frames.length → t.next = 0 → ¬ t.delay < t.last_update + elapsed →
        t.state elapsed = (.Waiting, { t with last_update := t.last_update + elapsed }))
    ∧ (t.next < t.frames.length → 0 < t.next →
        t.frames.getD t.next 0 ≤ t.last_update + elapsed →
        t.state elapsed = (.Ready, { t with next := t.next + 1, last_update := 0 }))
    ∧ (t.next < t.frames.length → 0 < t.next →
        ¬ t.frames.getD t.next 0 ≤ t.last_update + elapsed →
        t.state elapsed = (.Waiting, { t with last_update := t.last_update + elapsed })) := by
  refine ⟨?_, ?_, ?_, ?_, ?_⟩
  · intro h
    simp [FrameTimer.state, FrameTimer.is_done, h]
  · intro hlt h0' hd
    have hne : ¬ (0 = t.frames.length) := by omega
    simp [FrameTimer.state, FrameTimer.is_done, h0', hne, hd]
  · intro hlt h0' hd
    have hne : ¬ (0 = t.frames.length) := by omega
    simp [FrameTimer.state, FrameTimer.is_done, h0', hne, hd]
  · intro hlt hpos hd
    have hne : ¬ (t.next = t.frames.length) := Nat.ne_of_lt hlt
    have hne0 : ¬ (t.next = 0) := by omega
    rw [List.getD_eq_getElem?_getD] at hd
    simp [FrameTimer.state, FrameTimer.is_done, hne, hne0, hd]
  · intro hlt hpos hd
    have hne : ¬ (t.next = t.frames.length) := Nat.ne_of_lt hlt
    have hne0 : ¬ (t.next = 0) := by omega
    simp only [FrameTimer.state, FrameTimer.is_done, decide_eq_true_eq]
    rw [if_neg hne, if_neg hne0, if_neg hd]

/-- C6 witness: a timer at frame index 1 of 2 whose accumulated total
reaches the frame duration advances with Ready. -/
theorem frame_timer_state_contract_witness :
    (FrameTimer.mk [2, 3] 1 0 1).state 5 = (.Ready, FrameTimer.mk [2, 3] 1 0 2) :=
  (frame_timer_state_contract (FrameTimer.mk [2, 3] 1 0 1) 5 (by norm_num)).2.2.2.1
    (by decide) (by decide) (by norm_num)

/-! ### C5: rotation reversibility -/

theorem rotate_none_pivot (p : Tetrinome) (h : p.pivot = none) (rot : Rotation) :
    p.rotate rot = p := by
  simp [Tetrinome.rotate, h]

theorem rotate_apply (p : Tetrinome) (i : Nat) (hp : p.pivot = some i)
    (rot : Rotation) (hr : rot ≠ Rotation.None) :
    p.rotate rot
      = { p with bones := rotate_bones ((p.bones.getD i default).coord) rot p.bones } := by
  cases rot with
  | None => exact absurd rfl hr
  | CW => simp [Tetrinome.rotate, hp]
  | CCW => simp [Tetrinome.rotate, hp]

theorem rotate_pivot_field (p : Tetrinome) (rot : Rotation) :
    (p.rotate rot).pivot = p.pivot := by
  cases hp : p.pivot with
  | none => cases rot <;> simp [Tetrinome.rotate, hp]
  | some i => cases rot <;> simp [Tetrinome.rotate, hp]

theorem rot_matrix_zero (rot : Rotation) : rot_matrix rot ⟨0, 0⟩ = ⟨0, 0⟩ := by
  cases rot <;> simp [rot_matrix, rotCW, rotCCW]

theorem coord_sub_self (c : Coord) : c.sub c = ⟨0, 0⟩ := by
  simp [Coord.sub]

theorem coord_add_zero (c : Coord) : c.add ⟨0, 0⟩ = c := by
  simp [Coord.add]

theorem rotate_getD_pivot (p : Tetrinome) (i : Nat) (hp : p.pivot = some i)
    (rot : Rotation) (hr : rot ≠ Rotation.None) :
    ((p.rotate rot).bones.getD i default).coord = (p.bones.getD i default).coord := by
  rw [rotate_apply p i hp rot hr]
  by_cases hi : i < p.bones.length
  · simp only [rotate_bones, List.getD_eq_getElem?_getD, List.getElem?_map,
      List.getElem?_eq_getElem hi, Option.map_some', Option.getD_some]
    rw [coord_sub_self, rot_matrix_zero, coord_add_zero]
  · have hnone : p.bones[i]? = none := List.getElem?_eq_none (by omega)
    simp only [rotate_bones, List.getD_eq_getElem?_getD, List.getElem?_map, hnone,
      Option.map_none', Option.getD_none]

theorem rot_cancel_key (r1 r2 : Rotation)
    (hm : ∀ d, rot_matrix r2 (rot_matrix r1 d) = d) (c pv : Coord) :
    pv.add (rot_matrix r2 ((pv.add (rot_matrix r1 (c.sub pv))).sub pv)) = c := by
  have hcan : (pv.add (rot_matrix r1 (c.sub pv))).sub pv = rot_matrix r1 (c.sub pv) := by
    cases rot_matrix r1 (c.sub pv) with
    | mk mx my =>
      simp only [Coord.add, Coord.sub, Coord.mk.injEq]
      omega
  rw [hcan, hm]
  cases c with
  | mk cx cy =>
    cases pv with
    | mk px py =>
      simp only [Coord.add, Coord.sub, Coord.mk.injEq]
      omega

theorem rotate_bones_cancel (pv : Coord) (r1 r2 : Rotation)
    (hm : ∀ d, rot_matrix r2 (rot_matrix r1 d) = d) (bones : List Bone) :
    rotate_bones pv r2 (rotate_bones pv r1 bones) = bones := by
  unfold rotate_bones
  rw [List.map_map]
  refine (List.map_congr_left ?_).trans (List.map_id _)
  intro bone _
  cases bone with
  | mk color coord =>
    simp only [Function.comp_apply, id_eq]
    rw [rot_cancel_key r1 r2 hm]

theorem rotate_rotate_eq_self (p : Tetrinome) (r1 r2 : Rotation)
    (h1 : r1 ≠ Rotation.None) (h2 : r2 ≠ Rotation.None)
    (hm : ∀ d, rot_matrix r2 (rot_matrix r1 d) = d) :
    (p.rotate r1).rotate r2 = p := by
  cases hp : p.pivot with
  | none =>
    rw [rotate_none_pivot p hp r1, rotate_none_pivot p hp r2]
  | some i =>
    have hp1 : (p.rotate r1).pivot = some i := by rw [rotate_pivot_field, hp]
    have hpv := rotate_getD_pivot p i hp r1 h1
    rw [rotate_apply (p.rotate r1) i hp1 r2 h2, hpv, rotate_apply p i hp r1 h1]
    cases p with
    | mk kind bones pivot =>
      simp only
      rw [rotate_bones_cancel _ r1 r2 hm]

/-- C5: rotating CW then CCW (and CCW then CW) restores every bone
exactly, and rotating a piece with no pivot is the identity for every
rotation argument. -/
theorem rotate_reversible (p : Tetrinome) :
    ((p.rotate .CW).rotate .CCW = p ∧ (p.rotate .CCW).rotate .CW = p)
    ∧ (p.pivot = none → ∀ rot, p.rotate rot = p) := by
  refine ⟨⟨?_, ?_⟩, ?_⟩
  · refine rotate_rotate_eq_self p .CW .CCW (by decide) (by decide) ?_
    intro d
    cases d with
    | mk dx dy =>
      simp only [rot_matrix, rotCW, rotCCW, Coord.mk.injEq]
      omega
  · refine rotate_rotate_eq_self p .CCW .CW (by decide) (by decide) ?_
    intro d
    cases d with
    | mk dx dy =>
      simp only [rot_matrix, rotCW, rotCCW, Coord.mk.injEq]
      omega
  · intro h rot
    exact rotate_none_pivot p h rot

/-- C5 witness: the O piece (which has no pivot) is fixed by every
rotation, and the round trips restore it exactly. -/
theorem rotate_reversible_witness :
    (((Tetrinome.from_piece .O).rotate .CW).rotate .CCW = Tetrinome.from_piece .O
      ∧ ((Tetrinome.from_piece .O).rotate .CCW).rotate .CW = Tetrinome.from_piece .O)
    ∧ (∀ rot, (Tetrinome.from_piece .O).rotate rot = Tetrinome.from_piece .O) :=
  ⟨(rotate_reversible (Tetrinome.from_piece .O)).1,
   fun rot => (rotate_reversible (Tetrinome.from_piece .O)).2 (by decide) rot⟩

/-! ### C2: the wall-kick retry on rotation -/

theorem updateCoords_shift (bs : List Bone) (offset : Coord) :
    updateCoords bs (bs.map (fun bone => bone.coord.add offset))
      = bs.map (fun bone => { bone with coord := bone.coord.add offset }) := by
  induction bs with
  | nil => rfl
  | cons bone bs ih => simp [updateCoords, ih]

theorem trans_change_eq_map (p : Tetrinome) (offset : Coord) :
    p.trans_change offset
      = { p with bones := p.bones.map (fun bone => { bone with coord := bone.coord.add offset }) } := by
  unfold Tetrinome.trans_change Tetrinome.trans_to Tetrinome.shift
  rw [updateCoords_shift]

theorem trans_change_trans_change (p : Tetrinome) (a b : Coord) :
    (p.trans_change a).trans_change b = p.trans_change (a.add b) := by
  rw [trans_change_eq_map, trans_change_eq_map, trans_change_eq_map]
  cases p with
  | mk kind bones pivot =>
    simp only [List.map_map, Tetrinome.mk.injEq, and_true, true_and]
    refine List.map_congr_left ?_
    intro bone _
    cases bone with
    | mk color coord =>
      simp only [Function.comp_apply, Bone.mk.injEq, true_and]
      cases coord with
      | mk cx cy =>
        cases a with
        | mk ax ay =>
          cases b with
          | mk bx bY =>
            simp only [Coord.add, Coord.mk.injEq]
            omega

theorem trans_change_zero (p : Tetrinome) : p.trans_change ⟨0, 0⟩ = p := by
  rw [trans_change_eq_map]
  cases p with
  | mk kind bones pivot =>
    simp only [Tetrinome.mk.injEq, and_true, true_and]
    refine (List.map_congr_left ?_).trans (List.map_id _)
    intro bone _
    cases bone with
    | mk color coord =>
      cases coord with
      | mk cx cy =>
        simp [Coord.add]

theorem trans_repeat_eq (p : Tetrinome) (d : Coord) (n : Nat) :
    p.trans_repeat d n = p.trans_change ⟨(n : Int) * d.x, (n : Int) * d.y⟩ := by
  induction n generalizing p with
  | zero =>
    simp only [Tetrinome.trans_repeat, Nat.cast_zero, zero_mul]
    exact (trans_change_zero p).symm
  | succ k ih =>
    rw [Tetrinome.trans_repeat, ih, trans_change_trans_change]
    congr 1
    cases d with
    | mk dx dy =>
      simp only [Coord.add, Coord.mk.injEq]
      push_cast
      constructor <;> ring

theorem foldl_min_le_foldl_max (l : List Int) :
    ∀ a b : Int, a ≤ b → l.foldl min a ≤ l.foldl max b := by
  induction l with
  | nil => intro a b h; exact h
  | cons x l ih =>
    intro a b h
    exact ih _ _ (le_trans (min_le_left a x) (le_trans h (le_max_left b x)))

theorem get_width_pos (p : Tetrinome) : 1 ≤ p.get_width := by
  unfold Tetrinome.get_width
  cases hb : p.bones with
  | nil => simp [List.max?, List.min?]
  | cons bone rest =>
    simp only [List.map_cons]
    rw [List.max?_cons', List.min?_cons']
    simp only [Option.getD_some]
    have := foldl_min_le_foldl_max (rest.map (fun bone => bone.coord.x))
      bone.coord.x bone.coord.x le_rfl
    omega

/-- C2: when the rotated candidate collides Left or Right under a CW/CCW
rotation, `move_if` performs exactly the spec's single wall-kick attempt:
it shifts the candidate horizontally by `width/2` cells (the candidate's
current width) opposite the collision, re-checks once with no further
rotation, adopts the kicked candidate when the re-check is clear and
otherwise leaves the grid exactly unchanged, reporting no commit. -/
theorem move_if_wall_kick (g : Grid) (dir : Direction) (rot : Rotation) (spawned : Tetrinome)
    (hrot : rot = Rotation.CW ∨ rot = Rotation.CCW)
    (hcol : g.blocks.check_collision (g.candidate dir rot) dir rot = Collision.Left
          ∨ g.blocks.check_collision (g.candidate dir rot) dir rot = Collision.Right) :
    g.move_if dir rot spawned = (g.kick_spec dir rot, false) := by
  have hw1 : (1 : Int) ≤ (g.candidate dir rot).get_width := get_width_pos (g.candidate dir rot)
  have hw : (0 : Int) ≤ (g.candidate dir rot).get_width / 2 :=
    Int.ediv_nonneg (by omega) (by norm_num)
  have hkick : ∀ sgn : Int,
      (g.candidate dir rot).trans_repeat ⟨sgn, 0⟩ ((g.candidate dir rot).get_width / 2).toNat
        = (g.candidate dir rot).trans_change ⟨sgn * ((g.candidate dir rot).get_width / 2), 0⟩ := by
    intro sgn
    rw [trans_repeat_eq]
    congr 1
    simp only [Coord.mk.injEq]
    rw [Int.toNat_of_nonneg hw]
    constructor
    · ring
    · ring
  rcases hcol with h | h <;> rcases hrot with rfl | rfl <;>
    simp only [Grid.move_if, Grid.kick_spec, h, Collision.to_dir, Direction.opposite,
      Direction.to_coord] <;>
    rw [hkick] <;>
    simp only [one_mul, neg_mul] <;>
    [cases hnew : g.blocks.check_collision
        ((g.candidate dir Rotation.CW).trans_change
          ⟨(g.candidate dir Rotation.CW).get_width / 2, 0⟩)
        Direction.Right Rotation.None;
     cases hnew : g.blocks.check_collision
        ((g.candidate dir Rotation.CCW).trans_change
          ⟨(g.candidate dir Rotation.CCW).get_width / 2, 0⟩)
        Direction.Right Rotation.None;
     cases hnew : g.blocks.check_collision
        ((g.candidate dir Rotation.CW).trans_change
          ⟨-((g.candidate dir Rotation.CW).get_width / 2), 0⟩)
        Direction.Left Rotation.None;
     cases hnew : g.blocks.check_collision
        ((g.candidate dir Rotation.CCW).trans_change
          ⟨-((g.candidate dir Rotation.CCW).get_width / 2), 0⟩)
        Direction.Left Rotation.None] <;>
    simp [hnew]

/-- Fixture for the C2 witness: a vertical I piece hugging the left wall
on an empty board; rotating it CW pushes cells past the wall. -/
def gC2 : Grid :=
  ⟨⟨List.replicate 200 none, []⟩,
   ⟨.I, [⟨.Green, ⟨0, 0⟩⟩, ⟨.Green, ⟨0, 1⟩⟩, ⟨.Green, ⟨0, 2⟩⟩, ⟨.Green, ⟨0, 3⟩⟩], some 1⟩,
   none⟩

/-- C2 witness: the CW rotation of the wall-hugging I piece collides
Left and `move_if` behaves exactly as the single-attempt kick. -/
theorem move_if_wall_kick_witness :
    gC2.move_if .None .CW (Tetrinome.from_piece .O) = (gC2.kick_spec .None .CW, false) :=
  move_if_wall_kick gC2 .None .CW (Tetrinome.from_piece .O) (Or.inl rfl) (Or.inl (by decide))

/-! ### C4: first-conflict collision classification -/

theorem collision_scan_eq_headD (b : Blocks) (dir : Direction) (rot : Rotation)
    (cs : List Coord) :
    b.collision_scan dir rot cs
      = (cs.filterMap (b.cell_conflict dir rot)).headD Collision.None := by
  induction cs with
  | nil => rfl
  | cons c rest ih =>
    by_cases h1 : c.x < 0
    · have hc : b.cell_conflict dir rot c = some Collision.Left := by
        simp [Blocks.cell_conflict, h1]
      rw [List.filterMap_cons_some hc]
      simp only [Blocks.collision_scan]
      rw [if_pos h1]
      rfl
    · by_cases h2 : Grid.WIDTH ≤ c.x
      · have hc : b.cell_conflict dir rot c = some Collision.Right := by
          simp [Blocks.cell_conflict, h1, h2]
        rw [List.filterMap_cons_some hc]
        simp only [Blocks.collision_scan]
        rw [if_neg h1, if_pos h2]
        rfl
      · by_cases h3 : Grid.HEIGHT ≤ c.y
        · have hc : b.cell_conflict dir rot c = some Collision.Under := by
            simp [Blocks.cell_conflict, h1, h2, h3]
          rw [List.filterMap_cons_some hc]
          simp only [Blocks.collision_scan]
          rw [if_neg h1, if_neg h2, if_pos h3]
          rfl
        · cases hb : b.get_block (c.coord_to_pos Grid.WIDTH) with
          | none =>
            have hc : b.cell_conflict dir rot c = none := by
              simp [Blocks.cell_conflict, h1, h2, h3, hb]
            rw [List.filterMap_cons_none hc]
            simp only [Blocks.collision_scan]
            rw [if_neg h1, if_neg h2, if_neg h3, hb]
            exact ih
          | some blk =>
            have hc : b.cell_conflict dir rot c = some (occupied_collision dir rot) := by
              simp [Blocks.cell_conflict, h1, h2, h3, hb]
            rw [List.filterMap_cons_some hc]
            simp only [Blocks.collision_scan]
            rw [if_neg h1, if_neg h2, if_neg h3, hb]
            rfl

/-- C4 (amended): `check_collision` returns the first per-cell conflict in
bone order, each cell classified with the priority x < 0 (Left), x ≥ width
(Right), y ≥ height (Under) and only then occupancy; in particular a
candidate whose first conflicting cell in bone order sits at x < 0 reports
Left even when a later cell lies over an occupied square. -/
theorem check_collision_first_conflict (b : Blocks) (piece : Tetrinome)
    (dir : Direction) (rot : Rotation) :
    b.check_collision piece dir rot
      = (piece.get_coords.filterMap (b.cell_conflict dir rot)).headD Collision.None
    ∧ (∀ (pre : List Coord) (c : Coord) (post : List Coord),
        piece.get_coords = pre ++ c :: post →
        (∀ c2 ∈ pre, b.cell_conflict dir rot c2 = none) →
        c.x < 0 →
        b.check_collision piece dir rot = Collision.Left) := by
  constructor
  · exact collision_scan_eq_headD b dir rot piece.get_coords
  · intro pre c post heq hpre hx
    rw [Blocks.check_collision, collision_scan_eq_headD, heq, List.filterMap_append,
      List.filterMap_eq_nil_iff.mpr hpre]
    have hc : b.cell_conflict dir rot c = some Collision.Left := by
      simp [Blocks.cell_conflict, hx]
    rw [List.filterMap_cons_some hc]
    rfl

/-- Fixture board for C4: a single committed block at (2, 5). -/
def bC4 : Blocks :=
  ⟨(List.replicate 200 (none : Option Block)).set 52 (some ⟨⟨Color.Green, ⟨2, 5⟩⟩, none⟩), []⟩

/-- Fixture piece for the C4 counterexample: the occupied-square cell
comes first in bone order, the x = -1 cell second. -/
def pC4 : Tetrinome :=
  ⟨.I, [⟨Color.Green, ⟨2, 5⟩⟩, ⟨Color.Green, ⟨-1, 5⟩⟩, ⟨Color.Green, ⟨3, 5⟩⟩,
        ⟨Color.Green, ⟨4, 5⟩⟩], some 1⟩

/-- C4 (counterexample): a candidate with one cell at x = -1 and another
cell over an occupied square reports Under (the occupied cell is scanned
first with a Down intent), not Left as the claim states. -/
theorem check_collision_priority_counterexample :
    (∃ c ∈ pC4.get_coords, c.x < 0)
    ∧ (∃ c ∈ pC4.get_coords, (bC4.get_block (c.coord_to_pos Grid.WIDTH)).isSome = true)
    ∧ bC4.check_collision pC4 .Down .None = Collision.Under
    ∧ bC4.check_collision pC4 .Down .None ≠ Collision.Left := by
  refine ⟨⟨⟨-1, 5⟩, by decide, by decide⟩, ⟨⟨2, 5⟩, by decide, by decide⟩, by decide, by decide⟩

/-- Fixture piece for the C4 witness: the x = -1 cell comes first. -/
def pC4w : Tetrinome :=
  ⟨.I, [⟨Color.Green, ⟨-1, 5⟩⟩, ⟨Color.Green, ⟨2, 5⟩⟩, ⟨Color.Green, ⟨3, 5⟩⟩,
        ⟨Color.Green, ⟨4, 5⟩⟩], some 1⟩

/-- C4 witness: the first-conflict characterization at a concrete board
and piece, and the Left verdict when the x = -1 cell is scanned first. -/
theorem check_collision_first_conflict_witness :
    bC4.check_collision pC4w .Down .None
      = (pC4w.get_coords.filterMap (bC4.cell_conflict .Down .None)).headD Collision.None
    ∧ bC4.check_collision pC4w .Down .None = Collision.Left :=
  ⟨(check_collision_first_conflict bC4 pC4w .Down .None).1,
   (check_collision_first_conflict bC4 pC4w .Down .None).2
     [] ⟨-1, 5⟩ [⟨2, 5⟩, ⟨3, 5⟩, ⟨4, 5⟩] (by decide) (by simp) (by decide)⟩

/-! ### C3: clear-completion gating in finish_clear -/

theorem foldl_set_none_length (s0 : Nat) (js : List Nat) :
    ∀ d : List (Option Block),
      (js.foldl (fun d j => d.set (s0 + j) none) d).length = d.length := by
  induction js with
  | nil => intro d; rfl
  | cons j js ih =>
    intro d
    rw [List.foldl_cons, ih, List.length_set]

theorem foldl_set_none_getElem?_outside (s0 : Nat) (js : List Nat) (i : Nat) :
    ∀ d : List (Option Block), (∀ j ∈ js, s0 + j ≠ i) →
      (js.foldl (fun d j => d.set (s0 + j) none) d)[i]? = d[i]? := by
  induction js with
  | nil => intro d _; rfl
  | cons j js ih =>
    intro d h
    rw [List.foldl_cons, ih _ (fun j2 hj2 => h j2 (List.mem_cons_of_mem _ hj2)),
      List.getElem?_set_ne (h j (List.mem_cons_self _ _))]

theorem foldl_set_none_getElem?_or (s0 : Nat) (js : List Nat) (i : Nat) :
    ∀ d : List (Option Block),
      (js.foldl (fun d j => d.set (s0 + j) none) d)[i]? = d[i]?
      ∨ (js.foldl (fun d j => d.set (s0 + j) none) d)[i]? = some none := by
  induction js with
  | nil => intro d; exact Or.inl rfl
  | cons j js ih =>
    intro d
    rw [List.foldl_cons]
    rcases ih (d.set (s0 + j) none) with h | h
    · rw [h]
      by_cases hji : s0 + j = i
      · subst hji
        by_cases hlen : s0 + j < d.length
        · exact Or.inr (by rw [List.getElem?_set_self hlen])
        · exact Or.inl (by rw [List.set_eq_of_length_le (by omega)])
      · exact Or.inl (by rw [List.getElem?_set_ne hji])
    · exact Or.inr h

theorem foldl_set_none_getElem?_hit (s0 : Nat) (js : List Nat) (i : Nat) :
    ∀ d : List (Option Block), i < d.length → (∃ j ∈ js, s0 + j = i) →
      (js.foldl (fun d j => d.set (s0 + j) none) d)[i]? = some none := by
  induction js with
  | nil =>
    intro d _ hmem
    simp at hmem
  | cons j js ih =>
    intro d hlen hmem
    rw [List.foldl_cons]
    by_cases htail : ∃ j2 ∈ js, s0 + j2 = i
    · exact ih _ (by rw [List.length_set]; exact hlen) htail
    · have hj : s0 + j = i := by
        rcases hmem with ⟨j2, hj2, hij⟩
        rcases List.mem_cons.mp hj2 with rfl | hj2mem
        · exact hij
        · exact absurd ⟨j2, hj2mem, hij⟩ htail
      rw [foldl_set_none_getElem?_outside s0 js i _
        (fun j2 hj2 heq => htail ⟨j2, hj2, heq⟩)]
      rw [← hj] at hlen ⊢
      rw [List.getElem?_set_self hlen]

theorem rowCells_getElem? (b : Blocks) (row : Int) (k : Nat) :
    (b.rowCells row)[k]?
      = if k < Grid.WIDTH.toNat then b.data[(row * Grid.WIDTH).toNat + k]? else none := by
  unfold Blocks.rowCells
  by_cases hk : k < Grid.WIDTH.toNat
  · rw [if_pos hk, List.getElem?_take_of_lt hk, List.getElem?_drop]
  · rw [if_neg hk, List.getElem?_take_eq_none (Nat.le_of_not_lt hk)]

theorem clear_row_data_getElem? (b : Blocks) (r : Int) (i : Nat) :
    ((b.clear_row r).data)[i]?
      = ((List.range Grid.WIDTH.toNat).foldl
          (fun d j => d.set ((r * Grid.WIDTH).toNat + j) none) b.data)[i]? := rfl

theorem clear_row_rowCells_ne (b : Blocks) (r q : Int) (hr : 0 ≤ r) (hq : 0 ≤ q)
    (hne : r ≠ q) :
    (b.clear_row r).rowCells q = b.rowCells q := by
  apply List.ext_getElem?
  intro k
  rw [rowCells_getElem?, rowCells_getElem?]
  by_cases hk : k < Grid.WIDTH.toNat
  · rw [if_pos hk, if_pos hk, clear_row_data_getElem?,
      foldl_set_none_getElem?_outside _ _ _ _ ?_]
    intro j hj heq
    rw [List.mem_range] at hj
    apply hne
    have hW : Grid.WIDTH = 10 := rfl
    rw [hW] at heq hj hk
    omega
  · rw [if_neg hk, if_neg hk]

theorem clear_row_rowCells_self (b : Blocks) (q : Int) :
    ∀ c ∈ (b.clear_row q).rowCells q, c = none := by
  intro c hc
  rw [List.mem_iff_getElem?] at hc
  rcases hc with ⟨k, hk⟩
  rw [rowCells_getElem?] at hk
  by_cases hkW : k < Grid.WIDTH.toNat
  · rw [if_pos hkW] at hk
    rw [clear_row_data_getElem?] at hk
    by_cases hlen : (q * Grid.WIDTH).toNat + k < b.data.length
    · rw [foldl_set_none_getElem?_hit _ _ _ _ hlen
        ⟨k, List.mem_range.mpr hkW, rfl⟩] at hk
      exact (Option.some.inj hk).symm
    · rw [List.getElem?_eq_none ?_] at hk
      · cases hk
      · rw [foldl_set_none_length]
        omega
  · rw [if_neg hkW] at hk
    cases hk

theorem clear_row_preserves_none (b : Blocks) (r q : Int)
    (h : ∀ c ∈ b.rowCells q, c = none) :
    ∀ c ∈ (b.clear_row r).rowCells q, c = none := by
  intro c hc
  rw [List.mem_iff_getElem?] at hc
  rcases hc with ⟨k, hk⟩
  rw [rowCells_getElem?] at hk
  by_cases hkW : k < Grid.WIDTH.toNat
  · rw [if_pos hkW] at hk
    rw [clear_row_data_getElem?] at hk
    rcases foldl_set_none_getElem?_or ((r * Grid.WIDTH).toNat) (List.range Grid.WIDTH.toNat)
        ((q * Grid.WIDTH).toNat + k) b.data with ho | ho
    · rw [ho] at hk
      apply h
      rw [List.mem_iff_getElem?]
      exact ⟨k, by rw [rowCells_getElem?, if_pos hkW]; exact hk⟩
    · rw [ho] at hk
      exact (Option.some.inj hk).symm
  · rw [if_neg hkW] at hk
    cases hk

theorem blank_fold_preserves (l : List Int) (q : Int) (hq : 0 ≤ q) :
    ∀ acc : Blocks, (∀ r ∈ l, 0 ≤ r ∧ r ≠ q) →
      (l.foldl (fun a r => a.clear_row r) acc).rowCells q = acc.rowCells q := by
  induction l with
  | nil => intro acc _; rfl
  | cons r l ih =>
    intro acc hl
    rw [List.foldl_cons, ih _ (fun r2 h2 => hl r2 (List.mem_cons_of_mem _ h2)),
      clear_row_rowCells_ne acc r q (hl r (List.mem_cons_self _ _)).1 hq
        (hl r (List.mem_cons_self _ _)).2]

theorem blank_fold_none (l : List Int) (q : Int) :
    ∀ acc : Blocks, (∀ c ∈ acc.rowCells q, c = none) →
      ∀ c ∈ (l.foldl (fun a r => a.clear_row r) acc).rowCells q, c = none := by
  induction l with
  | nil => intro acc h; exact h
  | cons r l ih =>
    intro acc h
    rw [List.foldl_cons]
    exact ih _ (clear_row_preserves_none acc r q h)

theorem blank_fold_hit (l : List Int) (q : Int) :
    ∀ acc : Blocks, q ∈ l →
      ∀ c ∈ (l.foldl (fun a r => a.clear_row r) acc).rowCells q, c = none := by
  induction l with
  | nil =>
    intro acc h
    simp at h
  | cons r l ih =>
    intro acc hmem
    rw [List.foldl_cons]
    rcases List.mem_cons.mp hmem with rfl | h
    · exact blank_fold_none l q _ (clear_row_rowCells_self acc q)
    · exact ih _ h

/-- C3: a queued row whose cells' timers include a Waiting peek is not
selected by `finish_clear` and its cells survive the blanking phase
untouched; a queued row all of whose cells' timers peek Done is selected
and every cell of the row is blanked by the blanking phase. -/
theorem finish_clear_gating (b : Blocks) (q : Int)
    (hq : q ∈ b.rows_full) (hpos : ∀ r ∈ b.rows_full, 0 ≤ r) :
    (FrameState.Waiting ∈ b.rowTimerStates q →
       b.row_ready q = false ∧ q ∉ b.readyRows
       ∧ b.blankPhase.rowCells q = b.rowCells q)
    ∧ ((∀ s ∈ b.rowTimerStates q, s = FrameState.Done) →
       b.row_ready q = true ∧ q ∈ b.readyRows
       ∧ ∀ c ∈ b.blankPhase.rowCells q, c = none) := by
  constructor
  · intro hw
    have hrr : b.row_ready q = false := by
      rw [Bool.eq_false_iff]
      intro ht
      rw [Blocks.row_ready, List.all_eq_true] at ht
      have := ht _ hw
      simp [FrameState.isDone] at this
    refine ⟨hrr, ?_, ?_⟩
    · intro hmem
      rw [Blocks.readyRows, List.mem_filter, hrr] at hmem
      exact absurd hmem.2 (by simp)
    · rw [Blocks.blankPhase]
      apply blank_fold_preserves b.readyRows q (hpos q hq)
      intro r hr
      have hr2 := List.mem_filter.mp hr
      refine ⟨hpos r hr2.1, ?_⟩
      intro heqq
      rw [heqq] at hr2
      rw [hrr] at hr2
      exact absurd hr2.2 (by simp)
  · intro hd
    have hrr : b.row_ready q = true := by
      rw [Blocks.row_ready, List.all_eq_true]
      intro s hs
      rw [hd s hs]
      rfl
    refine ⟨hrr, ?_, ?_⟩
    · rw [Blocks.readyRows, List.mem_filter]
      exact ⟨hq, hrr⟩
    · rw [Blocks.blankPhase]
      apply blank_fold_hit b.readyRows q b
      rw [Blocks.readyRows, List.mem_filter]
      exact ⟨hq, hrr⟩

/-- Fixture timer for C3 that peeks Waiting (index 0, delay not passed). -/
def tWait : FrameTimer := ⟨[5], 0, 0, 0⟩

/-- Fixture timer for C3 that peeks Done (index = frame count). -/
def tDone : FrameTimer := ⟨[5], 0, 0, 1⟩

/-- Fixture board for C3 with row 2 queued and one Waiting-timer cell in row 2. -/
def bC3wait : Blocks :=
  ⟨(List.replicate 200 (none : Option Block)).set 25
     (some ⟨⟨.Red, ⟨5, 2⟩⟩, some tWait⟩), [2]⟩

/-- Fixture board for C3 with row 2 queued and one Done-timer cell in row 2. -/
def bC3done : Blocks :=
  ⟨(List.replicate 200 (none : Option Block)).set 25
     (some ⟨⟨.Red, ⟨5, 2⟩⟩, some tDone⟩), [2]⟩

/-- C3 witness: with a Waiting peek the queued row survives the blanking
phase unchanged; with all peeks Done every cell of the row is blanked. -/
theorem finish_clear_gating_witness :
    bC3wait.blankPhase.rowCells 2 = bC3wait.rowCells 2
    ∧ ∀ c ∈ bC3done.blankPhase.rowCells 2, c = none :=
  ⟨((finish_clear_gating bC3wait 2 (by decide) (by decide)).1 (by decide)).2.2,
   ((finish_clear_gating bC3done 2 (by decide) (by decide)).2 (by decide)).2.2⟩

/-! ### C8: spawn applies rotation before horizontal placement -/

theorem sample_width_le (i : Fin 7) (rot : Rotation) :
    (Tetrinome.sample i rot).get_width ≤ 4 := by
  fin_cases i <;> cases rot <;> decide

/-- C8: spawning with injected random draws rotates the selected
prototype around its own pivot first and only then translates it
horizontally to the top row (y = -1); for any offset the source can draw
(`TETRINOME_SIZE <= xoff < width - TETRINOME_SIZE`) the applied offset
lies within [pieceWidth, width - pieceWidth) for the spawned piece's
width. -/
theorem spawn_rotation_then_offset (width : Int) (i : Fin 7) (rot : Rotation) (xoff : Int)
    (h1 : (TETRINOME_SIZE : Int) ≤ xoff) (h2 : xoff < width - (TETRINOME_SIZE : Int)) :
    Tetrinome.new width i rot xoff
      = (Tetrinome.sample i rot).trans_change ⟨xoff, -1⟩
    ∧ (Tetrinome.sample i rot).get_width ≤ xoff
    ∧ xoff < width - (Tetrinome.sample i rot).get_width := by
  have hle := sample_width_le i rot
  have hts : (TETRINOME_SIZE : Int) = 4 := rfl
  rw [hts] at h1 h2
  exact ⟨rfl, by omega, by omega⟩

/-- C8 witness at board width 10, piece index 3, CW pre-rotation, offset 4. -/
theorem spawn_rotation_then_offset_witness :
    Tetrinome.new 10 3 .CW 4 = (Tetrinome.sample 3 .CW).trans_change ⟨4, -1⟩
    ∧ (Tetrinome.sample 3 .CW).get_width ≤ 4
    ∧ (4 : Int) < 10 - (Tetrinome.sample 3 .CW).get_width :=
  spawn_rotation_then_offset 10 3 .CW 4 (by decide) (by decide)
